import Mathlib

/-
Verification of the hitbox decomposition engine of
`HitboxGeneration3D.py` (class `AdvancedVoxelGenerator`).

The engine partitions mesh vertices into spatial clusters (an external
KMeans fit followed by in-repo medoid-snap refinement rounds), derives an
axis-aligned bounding box per cluster, and reports progress milestones.
Vertex coordinates are embedded as rational triples; the external
`sklearn` KMeans fit is abstracted by taking the fitted cluster centers as
an explicit input (`fitCenters`), constrained in theorems exactly as the
code constrains the fit (`n_clusters = min(params['clusters'],
len(vertices))`).  Everything after the fit — the refinement loop of
lines 212–217, `predict`, the box comprehension of line 220, the progress
updates and the exception handling — is embedded directly from the source.
-/

namespace HitboxGen

/-- Vertex position: a 3-component point, embedded over the rationals. -/
abbrev Pt : Type := ℚ × ℚ × ℚ

/-- Squared euclidean distance between two points; the euclidean metric of
`pairwise_distances_argmin_min` induces the same ordering. -/
def distSq (p q : Pt) : ℚ :=
  (p.1 - q.1) * (p.1 - q.1) + (p.2.1 - q.2.1) * (p.2.1 - q.2.1) +
    (p.2.2 - q.2.2) * (p.2.2 - q.2.2)

/-- Minimal squared distance from `q` to any point of the nonempty list
`v :: l`. -/
def minDistSq (q v : Pt) : List Pt → ℚ
  | [] => distSq q v
  | w :: rest => min (distSq q v) (minDistSq q w rest)

/-- Index (into `v :: l`) of the first point attaining the minimal distance
to `q` — numpy/sklearn `argmin` breaks ties by the lowest index. -/
def nearestIdx1 (q v : Pt) : List Pt → Nat
  | [] => 0
  | w :: rest => if distSq q v ≤ minDistSq q w rest then 0 else nearestIdx1 q w rest + 1

/-- Index of the nearest point of `vs` to `q`, ties broken by lowest index
(`pairwise_distances_argmin_min(q, vs)`); `0` for an empty list. -/
def nearestIdx (q : Pt) : List Pt → Nat
  | [] => 0
  | v :: rest => nearestIdx1 q v rest

/-- One medoid-snap: every center is replaced by the position of the nearest
real vertex (lines 214–215: `closest, _ = pairwise_distances_argmin_min(
kmeans.cluster_centers_, vertices); kmeans.cluster_centers_ = vertices[closest]`). -/
def snapRound (vs cs : List Pt) : List Pt :=
  cs.map (fun c => vs.getD (nearestIdx c vs) c)

/-- The refinement loop of lines 212–217 restricted to its effect on the
centers: `n` successive snap rounds. -/
def codeRefine (vs : List Pt) : List Pt → Nat → List Pt
  | cs, 0 => cs
  | cs, n + 1 => codeRefine vs (snapRound vs cs) n

/-- Nearest-centroid assignment for every vertex
(`kmeans.predict(vertices)`, line 219). -/
def predictLabels (vs cs : List Pt) : List Nat :=
  vs.map (fun v => nearestIdx v cs)

/-- Centers after the three refinement rounds of lines 212–217. -/
def finalCenters (vs cs : List Pt) : List Pt :=
  codeRefine vs cs 3

/-- Final per-vertex cluster assignment (line 219). -/
def finalLabels (vs cs : List Pt) : List Nat :=
  predictLabels vs (finalCenters vs cs)

/-- Componentwise minimum of two points. -/
def pmin (p q : Pt) : Pt :=
  (min p.1 q.1, min p.2.1 q.2.1, min p.2.2 q.2.2)

/-- Componentwise maximum of two points. -/
def pmax (p q : Pt) : Pt :=
  (max p.1 q.1, max p.2.1 q.2.1, max p.2.2 q.2.2)

/-- Lines 232–233: `np.array([np.min(points, axis=0), np.max(points,
axis=0)])`.  `np.min` on an empty array raises `ValueError`; the embedding
returns `none` on that error branch. -/
def get_bounding_box (pts : List Pt) : Option (Pt × Pt) :=
  match pts with
  | [] => none
  | p :: rest => some (rest.foldl (fun a q => (pmin a.1 q, pmax a.2 q)) (p, p))

/-- Member positions of cluster `i` in vertex order
(`vertices[labels == i]`, line 220). -/
def clusterMembers (vs : List Pt) (labels : List Nat) (i : Nat) : List Pt :=
  ((vs.zip labels).filter (fun p => p.2 == i)).map Prod.fst

/-- Sequencing of a list of optional values: `none` as soon as any element
is `none` (a raised `ValueError` aborts the list comprehension). -/
def optList {α : Type} : List (Option α) → Option (List α)
  | [] => some []
  | none :: _ => none
  | some a :: rest =>
    match optList rest with
    | none => none
    | some l => some (a :: l)

/-- Line 220: one box per cluster index in `range(kmeans.n_clusters)`;
an empty cluster makes `get_bounding_box` raise, aborting the whole list. -/
def extractBoxes (vs : List Pt) (labels : List Nat) (k : Nat) : Option (List (Pt × Pt)) :=
  optList ((List.range k).map (fun i => get_bounding_box (clusterMembers vs labels i)))

/-- Parameters of one precision tier. -/
structure TierParams where
  clusters : Nat
  iterations : Nat
deriving DecidableEq

/-- The `precision_levels` dictionary of lines 37–43; `none` models the
`KeyError` of an unknown tier name. -/
def precision_levels : String → Option TierParams
  | "super low" => some ⟨50, 5⟩
  | "low" => some ⟨150, 10⟩
  | "medium" => some ⟨300, 15⟩
  | "high" => some ⟨600, 20⟩
  | "ultra" => some ⟨1200, 25⟩
  | _ => none

/-- Terminal effect of one `generate_hitboxes` call on `current_hitboxes`:
`ok boxes` assigns a new hitbox list, `cancelled` is the early return of
line 213, `error` is a caught exception (line 226) leaving the previous
hitboxes untouched. -/
inductive GenOutcome where
  | ok (boxes : List (Pt × Pt))
  | cancelled
  | error
deriving DecidableEq

/-- Non-bypass body of `generate_hitboxes` (lines 200–230) after the
KMeans fit, whose centers are the input `cs`; `k` is the constructor
argument `n_clusters = min(params['clusters'], len(vertices))`.  `k = 0`
(empty mesh) makes the fit itself raise.  The second component is the
sequence of `update_progress` values, including the `finally` reset. -/
def runNonBypass (cancel : Bool) (k : Nat) (vs cs : List Pt) : GenOutcome × List Nat :=
  if k = 0 then (.error, [10, 0])
  else if cancel then (.cancelled, [10, 50, 0])
  else
    match extractBoxes vs (finalLabels vs cs) k with
    | none => (.error, [10, 50, 50, 60, 70, 0])
    | some boxes => (.ok boxes, [10, 50, 50, 60, 70, 80, 0])

/-- Lines 187–230.  `cancel` is the value of the (never-mutated, see the
shadowing model below) cooperative flag during the run; `cs` abstracts the
centers returned by the external `kmeans.fit`.  Returns the terminal
outcome and the full `update_progress` trace of the call. -/
def generate_hitboxes (cancel : Bool) (level : String) (vs cs : List Pt) :
    GenOutcome × List Nat :=
  match precision_levels level with
  | none => (.error, [10, 0])
  | some params =>
    if level = "super low" then
      match get_bounding_box vs with
      | none => (.error, [10, 0])
      | some b => (.ok [b], [10, 0])
    else runNonBypass cancel (min params.clusters vs.length) vs cs

/-- Lines 145–166: load a model (success abstracted by `loadOk`), then run
`generate_hitboxes('high')` synchronously, then report 90 and reset.
Second component is the concatenated `update_progress` trace. -/
def process_model (cancel : Bool) (loadOk : Bool) (vs cs : List Pt) :
    GenOutcome × List Nat :=
  if loadOk then
    ((generate_hitboxes cancel "high" vs cs).1,
      [10, 30] ++ (generate_hitboxes cancel "high" vs cs).2 ++ [90, 0])
  else (.error, [10, 0])

/-! Basic facts about the squared distance. -/

theorem distSq_nonneg (p q : Pt) : 0 ≤ distSq p q := by
  unfold distSq
  nlinarith [mul_self_nonneg (p.1 - q.1), mul_self_nonneg (p.2.1 - q.2.1),
    mul_self_nonneg (p.2.2 - q.2.2)]

theorem distSq_self (p : Pt) : distSq p p = 0 := by
  simp [distSq]

theorem distSq_eq_zero_iff (p q : Pt) : distSq p q = 0 ↔ p = q := by
  obtain ⟨a, b, c⟩ := p
  obtain ⟨d, e, f⟩ := q
  simp only [distSq, Prod.mk.injEq]
  constructor
  · intro h
    refine ⟨?_, ?_, ?_⟩ <;>
      nlinarith [mul_self_nonneg (a - d), mul_self_nonneg (b - e), mul_self_nonneg (c - f)]
  · rintro ⟨rfl, rfl, rfl⟩
    ring

/-! Facts about the argmin over a vertex list. -/

theorem minDistSq_le_head (q v : Pt) (l : List Pt) : minDistSq q v l ≤ distSq q v := by
  cases l with
  | nil => simp [minDistSq]
  | cons w rest => exact min_le_left _ _

theorem minDistSq_le_mem (q v w : Pt) (l : List Pt) (hw : w ∈ l) :
    minDistSq q v l ≤ distSq q w := by
  induction l generalizing v with
  | nil => cases hw
  | cons x rest ih =>
    rcases List.mem_cons.mp hw with h | h
    · subst h
      exact le_trans (min_le_right _ _) (minDistSq_le_head q w rest)
    · exact le_trans (min_le_right _ _) (ih x h)

theorem nearestIdx1_lt (q v : Pt) (l : List Pt) : nearestIdx1 q v l < l.length + 1 := by
  induction l generalizing v with
  | nil => simp [nearestIdx1]
  | cons w rest ih =>
    simp only [nearestIdx1, List.length_cons]
    split
    · omega
    · have := ih w
      omega

theorem distSq_nearestIdx1 (q v d : Pt) (l : List Pt) :
    distSq q ((v :: l).getD (nearestIdx1 q v l) d) = minDistSq q v l := by
  induction l generalizing v with
  | nil => simp [nearestIdx1, minDistSq]
  | cons w rest ih =>
    simp only [nearestIdx1, minDistSq]
    split
    · next h =>
      simp only [List.getD_cons_zero]
      exact (min_eq_left h).symm
    · next h =>
      simp only [List.getD_cons_succ]
      rw [ih w]
      exact (min_eq_right (le_of_not_le h)).symm

theorem nearestIdx_lt (q : Pt) (vs : List Pt) (h : vs ≠ []) :
    nearestIdx q vs < vs.length := by
  cases vs with
  | nil => exact absurd rfl h
  | cons v rest => simpa [nearestIdx] using nearestIdx1_lt q v rest

theorem distSq_nearest_le (q w d : Pt) (vs : List Pt) (hw : w ∈ vs) :
    distSq q (vs.getD (nearestIdx q vs) d) ≤ distSq q w := by
  cases vs with
  | nil => cases hw
  | cons v rest =>
    rw [show nearestIdx q (v :: rest) = nearestIdx1 q v rest from rfl, distSq_nearestIdx1]
    rcases List.mem_cons.mp hw with h | h
    · subst h
      exact minDistSq_le_head q w rest
    · exact minDistSq_le_mem q v w rest h

theorem nearest_self (q d : Pt) (vs : List Pt) (hq : q ∈ vs) :
    vs.getD (nearestIdx q vs) d = q := by
  have h1 := distSq_nearest_le q q d vs hq
  rw [distSq_self] at h1
  have h2 := distSq_nonneg q (vs.getD (nearestIdx q vs) d)
  exact ((distSq_eq_zero_iff q _).mp (le_antisymm h1 h2)).symm

theorem getD_mem_of_lt (l : List Pt) (n : Nat) (d : Pt) (h : n < l.length) :
    l.getD n d ∈ l := by
  rw [List.getD_eq_getElem l d h]
  exact List.getElem_mem h

theorem nearestIdx_eq_of_getD_nodup (q d : Pt) (cs : List Pt) (i : Nat)
    (hi : i < cs.length) (hq : cs.getD i d = q) (hnd : cs.Nodup) :
    nearestIdx q cs = i := by
  have hne : cs ≠ [] := by
    intro h
    subst h
    simp at hi
  have hlt := nearestIdx_lt q cs hne
  have hmem : q ∈ cs := hq ▸ getD_mem_of_lt cs i d hi
  have hfix := nearest_self q d cs hmem
  have : cs.getD (nearestIdx q cs) d = cs.getD i d := by rw [hfix, hq]
  rw [List.getD_eq_getElem cs d hlt, List.getD_eq_getElem cs d hi] at this
  exact hnd.getElem_inj_iff.mp this

/-! Medoid snapping keeps centers that already sit on vertices unchanged. -/

theorem snapRound_fixed (vs cs : List Pt) (h : ∀ c ∈ cs, c ∈ vs) :
    snapRound vs cs = cs := by
  unfold snapRound
  conv_rhs => rw [← List.map_id cs]
  exact List.map_congr_left (fun c hc => nearest_self c c vs (h c hc))

theorem snapRound_length (vs cs : List Pt) : (snapRound vs cs).length = cs.length := by
  simp [snapRound]

theorem snapRound_mem (vs cs : List Pt) (hvs : vs ≠ []) :
    ∀ c ∈ snapRound vs cs, c ∈ vs := by
  intro c hc
  obtain ⟨x, _, rfl⟩ := List.mem_map.mp hc
  exact getD_mem_of_lt vs _ x (nearestIdx_lt x vs hvs)

theorem codeRefine_fixed (vs cs : List Pt) (h : ∀ c ∈ cs, c ∈ vs) (n : Nat) :
    codeRefine vs cs n = cs := by
  induction n with
  | zero => rfl
  | succ n ih =>
    show codeRefine vs (snapRound vs cs) n = cs
    rw [snapRound_fixed vs cs h]
    exact ih

theorem codeRefine_length (vs : List Pt) (n : Nat) :
    ∀ cs : List Pt, (codeRefine vs cs n).length = cs.length := by
  induction n with
  | zero => intro cs; rfl
  | succ n ih =>
    intro cs
    show (codeRefine vs (snapRound vs cs) n).length = cs.length
    rw [ih, snapRound_length]

theorem codeRefine_mem (vs : List Pt) (hvs : vs ≠ []) (n : Nat) :
    ∀ cs : List Pt, ∀ c ∈ codeRefine vs cs (n + 1), c ∈ vs := by
  induction n with
  | zero => intro cs c hc; exact snapRound_mem vs cs hvs c hc
  | succ n ih => intro cs c hc; exact ih (snapRound vs cs) c hc

theorem finalCenters_fixed (vs cs : List Pt) (h : ∀ c ∈ cs, c ∈ vs) :
    finalCenters vs cs = cs :=
  codeRefine_fixed vs cs h 3

theorem finalCenters_length (vs cs : List Pt) :
    (finalCenters vs cs).length = cs.length :=
  codeRefine_length vs 3 cs

theorem finalCenters_mem (vs cs : List Pt) (hvs : vs ≠ []) :
    ∀ c ∈ finalCenters vs cs, c ∈ vs :=
  codeRefine_mem vs hvs 2 cs

/-! Cluster membership given a labelling computed pointwise from the vertices. -/

theorem clusterMembers_map (vs : List Pt) (g : Pt → Nat) (i : Nat) :
    clusterMembers vs (vs.map g) i = vs.filter (fun v => g v == i) := by
  induction vs with
  | nil => rfl
  | cons v rest ih =>
    unfold clusterMembers at ih ⊢
    simp only [List.map_cons, List.zip_cons_cons, List.filter_cons]
    by_cases h : (g v == i : Bool) = true
    · simp [h, ih]
    · simp [h, ih]

theorem predictLabels_getD (vs cs : List Pt) (j : Nat) (hj : j < vs.length) (d : Pt) :
    (predictLabels vs cs).getD j 0 = nearestIdx (vs.getD j d) cs := by
  unfold predictLabels
  rw [List.getD_eq_getElem _ 0 (by simpa using hj), List.getElem_map,
    List.getD_eq_getElem vs d hj]

/-! Sequencing of optional boxes. -/

theorem optList_map_some {α β : Type} (l : List α) (f : α → Option β) (g : α → β)
    (h : ∀ x ∈ l, f x = some (g x)) : optList (l.map f) = some (l.map g) := by
  induction l with
  | nil => rfl
  | cons x rest ih =>
    simp only [List.map_cons]
    rw [h x (List.mem_cons_self x rest)]
    simp only [optList]
    rw [ih (fun y hy => h y (List.mem_cons_of_mem x hy))]

theorem optList_map_none {α β : Type} (l : List α) (f : α → Option β) (x : α)
    (hx : x ∈ l) (h : f x = none) : optList (l.map f) = none := by
  induction l with
  | nil => cases hx
  | cons y rest ih =>
    simp only [List.map_cons]
    rcases List.mem_cons.mp hx with hxy | hxr
    · subst hxy
      rw [h]
      rfl
    · cases hy : f y with
      | none => rfl
      | some a =>
        simp only [optList]
        rw [ih hxr]

theorem map_range_getD {β : Type} (h : Pt → β) (cs : List Pt) (d : Pt) :
    (List.range cs.length).map (fun i => h (cs.getD i d)) = cs.map h := by
  induction cs with
  | nil => rfl
  | cons c rest ih =>
    simp only [List.length_cons, List.range_succ_eq_map, List.map_cons, List.map_map]
    refine congrArg₂ _ (by simp) ?_
    calc (List.range rest.length).map ((fun i => h ((c :: rest).getD i d)) ∘ Nat.succ)
        = (List.range rest.length).map (fun i => h (rest.getD i d)) := by
          refine List.map_congr_left (fun i _ => ?_)
          simp [Function.comp, List.getD_cons_succ]
      _ = rest.map h := ih

/-! Bounding boxes of special point lists. -/

theorem pmin_self (p : Pt) : pmin p p = p := by
  simp [pmin]

theorem pmax_self (p : Pt) : pmax p p = p := by
  simp [pmax]

theorem foldl_bbox_const (p : Pt) (l : List Pt) (h : ∀ x ∈ l, x = p) :
    l.foldl (fun a q => (pmin a.1 q, pmax a.2 q)) (p, p) = (p, p) := by
  induction l with
  | nil => rfl
  | cons x rest ih =>
    have hx : x = p := h x (List.mem_cons_self x rest)
    subst hx
    simp only [List.foldl_cons, pmin_self, pmax_self]
    exact ih (fun y hy => h y (List.mem_cons_of_mem x hy))

theorem get_bounding_box_const (p : Pt) (l : List Pt) (hne : l ≠ [])
    (h : ∀ x ∈ l, x = p) : get_bounding_box l = some (p, p) := by
  cases l with
  | nil => exact absurd rfl hne
  | cons v rest =>
    have hv : v = p := h v (List.mem_cons_self v rest)
    subst hv
    simp only [get_bounding_box]
    rw [foldl_bbox_const v rest (fun y hy => h y (List.mem_cons_of_mem v hy))]

theorem foldl_bbox_split (rest : List Pt) (a b : Pt) :
    rest.foldl (fun acc q => (pmin acc.1 q, pmax acc.2 q)) (a, b)
      = (rest.foldl pmin a, rest.foldl pmax b) := by
  induction rest generalizing a b with
  | nil => rfl
  | cons x r ih => simp only [List.foldl_cons, ih]

/-! Componentwise folds for the mesh-bounds comparison. -/

theorem foldl_pmin_fst (rest : List Pt) (a : Pt) :
    (rest.foldl pmin a).1 = (rest.map (·.1)).foldl min a.1 := by
  induction rest generalizing a with
  | nil => rfl
  | cons x r ih => simp only [List.foldl_cons, List.map_cons, ih, pmin]

theorem foldl_pmin_snd_fst (rest : List Pt) (a : Pt) :
    (rest.foldl pmin a).2.1 = (rest.map (·.2.1)).foldl min a.2.1 := by
  induction rest generalizing a with
  | nil => rfl
  | cons x r ih => simp only [List.foldl_cons, List.map_cons, ih, pmin]

theorem foldl_pmin_snd_snd (rest : List Pt) (a : Pt) :
    (rest.foldl pmin a).2.2 = (rest.map (·.2.2)).foldl min a.2.2 := by
  induction rest generalizing a with
  | nil => rfl
  | cons x r ih => simp only [List.foldl_cons, List.map_cons, ih, pmin]

theorem foldl_pmax_fst (rest : List Pt) (a : Pt) :
    (rest.foldl pmax a).1 = (rest.map (·.1)).foldl max a.1 := by
  induction rest generalizing a with
  | nil => rfl
  | cons x r ih => simp only [List.foldl_cons, List.map_cons, ih, pmax]

theorem foldl_pmax_snd_fst (rest : List Pt) (a : Pt) :
    (rest.foldl pmax a).2.1 = (rest.map (·.2.1)).foldl max a.2.1 := by
  induction rest generalizing a with
  | nil => rfl
  | cons x r ih => simp only [List.foldl_cons, List.map_cons, ih, pmax]

theorem foldl_pmax_snd_snd (rest : List Pt) (a : Pt) :
    (rest.foldl pmax a).2.2 = (rest.map (·.2.2)).foldl max a.2.2 := by
  induction rest generalizing a with
  | nil => rfl
  | cons x r ih => simp only [List.foldl_cons, List.map_cons, ih, pmax]

/-! Argmin over a list of pairwise equal points. -/

theorem minDistSq_const (q p v : Pt) (l : List Pt) (hv : v = p)
    (hl : ∀ c ∈ l, c = p) : minDistSq q v l = distSq q p := by
  induction l generalizing v with
  | nil => simp [minDistSq, hv]
  | cons w rest ih =>
    have hw : w = p := hl w (List.mem_cons_self w rest)
    simp only [minDistSq, hv, ih w hw (fun c hc => hl c (List.mem_cons_of_mem w hc)),
      min_self]

theorem nearestIdx_const (q p : Pt) (cs : List Pt) (hne : cs ≠ [])
    (h : ∀ c ∈ cs, c = p) : nearestIdx q cs = 0 := by
  cases cs with
  | nil => exact absurd rfl hne
  | cons v rest =>
    have hv : v = p := h v (List.mem_cons_self v rest)
    show nearestIdx1 q v rest = 0
    cases rest with
    | nil => rfl
    | cons w r =>
      have hw : w = p := h w (List.mem_cons_of_mem v (List.mem_cons_self w r))
      simp only [nearestIdx1]
      rw [minDistSq_const q p w r hw
        (fun c hc => h c (List.mem_cons_of_mem v (List.mem_cons_of_mem w hc))), hv, if_pos le_rfl]

/-! Unfolding lemmas for the job body. -/

theorem generate_eq_runNonBypass (cancel : Bool) (level : String) (params : TierParams)
    (vs cs : List Pt) (hlevel : precision_levels level = some params)
    (hsl : level ≠ "super low") :
    generate_hitboxes cancel level vs cs
      = runNonBypass cancel (min params.clusters vs.length) vs cs := by
  unfold generate_hitboxes
  rw [hlevel]
  simp only [if_neg hsl]

theorem runNonBypass_some (k : Nat) (vs cs : List Pt) (boxes : List (Pt × Pt))
    (hk : k ≠ 0) (hex : extractBoxes vs (finalLabels vs cs) k = some boxes) :
    runNonBypass false k vs cs = (.ok boxes, [10, 50, 50, 60, 70, 80, 0]) := by
  unfold runNonBypass
  rw [if_neg hk, if_neg (by simp), hex]

theorem runNonBypass_none (k : Nat) (vs cs : List Pt)
    (hk : k ≠ 0) (hex : extractBoxes vs (finalLabels vs cs) k = none) :
    runNonBypass false k vs cs = (.error, [10, 50, 50, 60, 70, 0]) := by
  unfold runNonBypass
  rw [if_neg hk, if_neg (by simp), hex]

/-! Spec-side definitions, used only to be compared against the embedded code. -/

/-- Follows the spec's words for one medoid-snap refinement round: replace
every centroid with the nearest real vertex, then recompute the
nearest-centroid assignment for every vertex. -/
def specRefineRound (vs : List Pt) (s : List Pt × List Nat) : List Pt × List Nat :=
  let cs := snapRound vs s.1
  (cs, predictLabels vs cs)

/-- Follows the spec's words: three medoid-snap refinement rounds applied to
the state (centers, assignment) returned by the clustering fit. -/
def specRefine3 (vs : List Pt) (cs0 : List Pt) (l0 : List Nat) : List Pt × List Nat :=
  specRefineRound vs (specRefineRound vs (specRefineRound vs (cs0, l0)))

/-- Minimum of `x :: l`. -/
def listMin (x : ℚ) (l : List ℚ) : ℚ := l.foldl min x

/-- Maximum of `x :: l`. -/
def listMax (x : ℚ) (l : List ℚ) : ℚ := l.foldl max x

/-- Follows the spec's words for the mesh's own bounds: the componentwise
minimum and componentwise maximum over all vertex positions (default box
for the empty mesh, which the claim excludes). -/
def specMeshBounds (vs : List Pt) : Pt × Pt :=
  match vs with
  | [] => (((0 : ℚ), 0, 0), ((0 : ℚ), 0, 0))
  | v :: rest =>
    ((listMin v.1 (rest.map (·.1)), listMin v.2.1 (rest.map (·.2.1)),
        listMin v.2.2 (rest.map (·.2.2))),
      (listMax v.1 (rest.map (·.1)), listMax v.2.1 (rest.map (·.2.1)),
        listMax v.2.2 (rest.map (·.2.2))))

/-- Boolean check that a progress trace never decreases. -/
def nonDecreasing : List Nat → Bool
  | [] => true
  | [_] => true
  | a :: b :: rest => decide (a ≤ b) && nonDecreasing (b :: rest)

/-- Indices (into the vertex list) of the members of cluster `i`. -/
def clusterIndexSet (labels : List Nat) (n i : Nat) : List Nat :=
  (List.range n).filter (fun j => labels.getD j 0 == i)

/-! Model of the UI object, its attribute dictionaries and the Cancel
control.  Python resolves `self.cancel_processing` through the instance
dictionary first; `__init__` (line 29) stores the boolean `False` there
before `setup_ui` (line 45, called at line 91) reads the attribute to bind
the Cancel button, so the bound command is the boolean, not the class
method of the same name (lines 136–138). -/

/-- A Python attribute value: a boolean or a bound method (named). -/
inductive PyVal where
  | boolV (b : Bool)
  | methodV (m : String)
deriving DecidableEq

/-- Mutable state of the generator relevant to cancellation. -/
structure AppState where
  cancel_flag : Bool
  logCount : Nat
deriving DecidableEq

/-- Class dictionary entry for the name `cancel_processing`: the method of
lines 136–138. -/
def classAttrs : List (String × PyVal) :=
  [("cancel_processing", .methodV "cancel_processing")]

/-- Instance dictionary after `__init__` line 29 has run: the same name is
bound to the boolean `False`. -/
def instAttrs : List (String × PyVal) :=
  [("cancel_processing", .boolV false)]

/-- Python attribute lookup: the instance dictionary shadows the class. -/
def attrLookup (name : String) : Option PyVal :=
  match instAttrs.lookup name with
  | some v => some v
  | none => classAttrs.lookup name

/-- The value bound to the Cancel button at line 91
(`command=self.cancel_processing`). -/
def cancelBtnCommand : Option PyVal := attrLookup "cancel_processing"

/-- Calling an attribute value: calling a non-callable boolean raises
`TypeError` inside the Tk callback and changes nothing; calling the
`cancel_processing` method would set the flag and log (lines 136–138). -/
def invokeVal : PyVal → AppState → AppState
  | .boolV _, s => s
  | .methodV m, s =>
    if m = "cancel_processing" then { cancel_flag := true, logCount := s.logCount + 1 }
    else s

/-- Events that touch the cancellation flag. -/
inductive UiEvent where
  | clickCancel
  | startProcessModel
  | startGenerate
deriving DecidableEq

/-- One event step: the Cancel click invokes whatever the button was bound
to; each job entry (lines 148 and 190) resets the flag to `False`. -/
def uiStep (s : AppState) : UiEvent → AppState
  | .clickCancel =>
    match cancelBtnCommand with
    | some v => invokeVal v s
    | none => s
  | .startProcessModel => { s with cancel_flag := false }
  | .startGenerate => { s with cancel_flag := false }

/-- State after `__init__`. -/
def initAppState : AppState := { cancel_flag := false, logCount := 0 }

/-- State reached by a sequence of events from start-up. -/
def runUi (evs : List UiEvent) : AppState := evs.foldl uiStep initAppState

/-! Model of the JSON export (lines 350–353) and its parser. -/

/-- JSON values needed by the export format. -/
inductive JValue where
  | num (q : ℚ)
  | arr (xs : List JValue)
  | obj (fields : List (String × JValue))

/-- One hitbox as JSON: exactly two 3-element coordinate arrays, min then
max (`[h[0].tolist(), h[1].tolist()]`). -/
def jsonOfBox (b : Pt × Pt) : JValue :=
  .arr [.arr [.num b.1.1, .num b.1.2.1, .num b.1.2.2],
        .arr [.num b.2.1, .num b.2.2.1, .num b.2.2.2]]

/-- Line 351: `{'hitboxes': [[h[0].tolist(), h[1].tolist()] for h in
self.current_hitboxes]}`. -/
def export_json (hs : List (Pt × Pt)) : JValue :=
  .obj [("hitboxes", .arr (hs.map jsonOfBox))]

/-- Parse one box from the export format. -/
def parseBox : JValue → Option (Pt × Pt)
  | .arr [.arr [.num a, .num b, .num c], .arr [.num d, .num e, .num f]] =>
    some ((a, b, c), (d, e, f))
  | _ => none

/-- Parse a whole exported hitbox set back into an ordered box sequence. -/
def parseHitboxes : JValue → Option (List (Pt × Pt))
  | .obj [("hitboxes", .arr xs)] => optList (xs.map parseBox)
  | _ => none

theorem get_bounding_box_eq_bounds (vs : List Pt) (hne : vs ≠ []) :
    get_bounding_box vs = some (specMeshBounds vs) := by
  cases vs with
  | nil => exact absurd rfl hne
  | cons v rest =>
    simp only [get_bounding_box, specMeshBounds, listMin, listMax, Option.some.injEq]
    rw [foldl_bbox_split]
    simp only [Prod.ext_iff]
    exact ⟨⟨foldl_pmin_fst rest v, foldl_pmin_snd_fst rest v, foldl_pmin_snd_snd rest v⟩,
      ⟨foldl_pmax_fst rest v, foldl_pmax_snd_fst rest v, foldl_pmax_snd_snd rest v⟩⟩

theorem generate_superlow (cancel : Bool) (vs cs : List Pt) :
    generate_hitboxes cancel "super low" vs cs
      = match get_bounding_box vs with
        | none => (.error, [10, 0])
        | some b => (.ok [b], [10, 0]) := by
  unfold generate_hitboxes
  rw [show precision_levels "super low" = some ⟨50, 5⟩ from rfl]
  exact if_pos rfl

/-- C2: after the initial clustering fit, the algorithm performs exactly 3
medoid-snap refinement rounds — each replacing every centroid by the
nearest real vertex (ties to the lowest vertex index, which is how
`nearestIdx` breaks ties) and recomputing the nearest-centroid assignment —
and the final (centers, assignment) state of the code's loop plus single
`predict` equals the spec's three assign-every-round rounds. -/
theorem refinement_three_medoid_rounds (vs cs0 : List Pt) (l0 : List Nat) :
    specRefine3 vs cs0 l0 = (finalCenters vs cs0, finalLabels vs cs0) := rfl

/-- C4: the Cancel button is bound to the boolean attribute (instance
attribute of line 29 shadowing the method of lines 136–138), and in every
state reachable by clicks and job starts the cooperative cancellation flag
is `False`. -/
theorem cancel_flag_always_false :
    cancelBtnCommand = some (.boolV false) ∧
      ∀ evs : List UiEvent, (runUi evs).cancel_flag = false := by
  constructor
  · rfl
  · have key : ∀ (evs : List UiEvent) (s : AppState), s.cancel_flag = false →
        (evs.foldl uiStep s).cancel_flag = false := by
      intro evs
      induction evs with
      | nil => intro s hs; exact hs
      | cons e rest ih =>
        intro s hs
        simp only [List.foldl_cons]
        apply ih
        cases e with
        | clickCancel => exact hs
        | startProcessModel => rfl
        | startGenerate => rfl
    intro evs
    exact key evs initAppState rfl

/-- C10: serializing a hitbox set to the JSON export format (an object with
key `hitboxes` holding, in order, one entry of exactly two 3-element
coordinate arrays per box, min then max) and parsing it back yields the
original ordered sequence of boxes. -/
theorem json_export_roundtrip (hs : List (Pt × Pt)) :
    parseHitboxes (export_json hs) = some hs := by
  show optList ((hs.map jsonOfBox).map parseBox) = some hs
  rw [List.map_map]
  have h := optList_map_some hs (parseBox ∘ jsonOfBox) id (fun b _ => rfl)
  rw [h, List.map_id]

/-- C8: for every non-empty mesh, the `super low` (minimal) tier bypasses
clustering and yields exactly one box equal to the mesh's own bounds, the
componentwise minimum and maximum over all vertex positions. -/
theorem superlow_single_mesh_bounds_box (vs cs : List Pt) (hne : vs ≠ []) :
    (generate_hitboxes false "super low" vs cs).1
      = GenOutcome.ok [specMeshBounds vs] := by
  rw [generate_superlow, get_bounding_box_eq_bounds vs hne]

/-- Witness for C8 at the spec's own example: the 8 vertices of the unit
cube produce the single box `[[0,0,0],[1,1,1]]`. -/
theorem superlow_single_mesh_bounds_box_witness :
    (([((0:ℚ),0,0), ((0:ℚ),0,1), ((0:ℚ),1,0), ((0:ℚ),1,1),
       ((1:ℚ),0,0), ((1:ℚ),0,1), ((1:ℚ),1,0), ((1:ℚ),1,1)] : List Pt) ≠ []) ∧
    (generate_hitboxes false "super low"
        [((0:ℚ),0,0), ((0:ℚ),0,1), ((0:ℚ),1,0), ((0:ℚ),1,1),
         ((1:ℚ),0,0), ((1:ℚ),0,1), ((1:ℚ),1,0), ((1:ℚ),1,1)] []).1
      = GenOutcome.ok [specMeshBounds
          [((0:ℚ),0,0), ((0:ℚ),0,1), ((0:ℚ),1,0), ((0:ℚ),1,1),
           ((1:ℚ),0,0), ((1:ℚ),0,1), ((1:ℚ),1,0), ((1:ℚ),1,1)]] :=
  ⟨by simp, superlow_single_mesh_bounds_box _ [] (by simp)⟩

/-- C7: for every non-bypass run whose fit returns the clamped number of
centers, the final per-vertex assignment is a partition of the vertex
indices: every index lies in some cluster with index below the clamped
count, and distinct clusters are disjoint. -/
theorem final_assignment_partition (level : String) (params : TierParams)
    (vs cs : List Pt)
    (hlevel : precision_levels level = some params) (hsl : level ≠ "super low")
    (hfit : cs.length = min params.clusters vs.length)
    (hne : vs ≠ []) (hcpos : 0 < params.clusters) :
    (∀ j < vs.length, ∃ i < min params.clusters vs.length,
        j ∈ clusterIndexSet (finalLabels vs cs) vs.length i) ∧
    (∀ i₁ i₂ j, j ∈ clusterIndexSet (finalLabels vs cs) vs.length i₁ →
        j ∈ clusterIndexSet (finalLabels vs cs) vs.length i₂ → i₁ = i₂) := by
  have hnpos : 0 < vs.length := List.length_pos.mpr hne
  have hkpos : 0 < min params.clusters vs.length := lt_min hcpos hnpos
  have hcs3len : (finalCenters vs cs).length = min params.clusters vs.length := by
    rw [finalCenters_length, hfit]
  have hcs3ne : finalCenters vs cs ≠ [] := by
    rw [← List.length_pos, hcs3len]
    exact hkpos
  constructor
  · intro j hj
    refine ⟨(finalLabels vs cs).getD j 0, ?_, ?_⟩
    · rw [finalLabels, predictLabels_getD vs _ j hj ((0 : ℚ), 0, 0), ← hcs3len]
      exact nearestIdx_lt _ _ hcs3ne
    · simp [clusterIndexSet, List.mem_filter, List.mem_range, hj]
  · intro i₁ i₂ j h1 h2
    simp only [clusterIndexSet, List.mem_filter, List.mem_range, beq_iff_eq] at h1 h2
    exact h1.2.symm.trans h2.2

/-- Witness for C7 on a concrete two-vertex mesh at the `medium` tier. -/
theorem final_assignment_partition_witness :
    (∀ j < ([((0:ℚ),0,0), ((3:ℚ),0,0)] : List Pt).length,
        ∃ i < min 300 ([((0:ℚ),0,0), ((3:ℚ),0,0)] : List Pt).length,
        j ∈ clusterIndexSet
            (finalLabels [((0:ℚ),0,0), ((3:ℚ),0,0)] [((0:ℚ),0,0), ((3:ℚ),0,0)])
            ([((0:ℚ),0,0), ((3:ℚ),0,0)] : List Pt).length i) ∧
    (∀ i₁ i₂ j,
        j ∈ clusterIndexSet
            (finalLabels [((0:ℚ),0,0), ((3:ℚ),0,0)] [((0:ℚ),0,0), ((3:ℚ),0,0)])
            ([((0:ℚ),0,0), ((3:ℚ),0,0)] : List Pt).length i₁ →
        j ∈ clusterIndexSet
            (finalLabels [((0:ℚ),0,0), ((3:ℚ),0,0)] [((0:ℚ),0,0), ((3:ℚ),0,0)])
            ([((0:ℚ),0,0), ((3:ℚ),0,0)] : List Pt).length i₂ → i₁ = i₂) :=
  final_assignment_partition "medium" ⟨300, 15⟩
    [((0:ℚ),0,0), ((3:ℚ),0,0)] [((0:ℚ),0,0), ((3:ℚ),0,0)]
    rfl (by decide) (by decide) (by decide) (by decide)

theorem job_errors_of_empty_cluster (level : String) (params : TierParams)
    (vs cs : List Pt) (i : Nat)
    (hlevel : precision_levels level = some params) (hsl : level ≠ "super low")
    (hk : min params.clusters vs.length ≠ 0)
    (hi : i < min params.clusters vs.length)
    (hemp : clusterMembers vs (finalLabels vs cs) i = []) :
    (generate_hitboxes false level vs cs).1 = GenOutcome.error := by
  have hex : extractBoxes vs (finalLabels vs cs) (min params.clusters vs.length) = none := by
    unfold extractBoxes
    exact optList_map_none _ _ i (List.mem_range.mpr hi) (by rw [hemp]; rfl)
  rw [generate_eq_runNonBypass false level params vs cs hlevel hsl,
    runNonBypass_none _ _ _ hk hex]

/-- C1 (amended): the box-extraction comprehension of line 220 runs over
every cluster index up to the clamped count, so a cluster with zero
members after the final assignment makes `get_bounding_box` hit its
empty-input error branch and the whole job terminates as an error instead
of simply yielding no box for that cluster. -/
theorem empty_cluster_job_errors (level : String) (params : TierParams)
    (vs cs : List Pt) (i : Nat)
    (hlevel : precision_levels level = some params) (hsl : level ≠ "super low")
    (hk : min params.clusters vs.length ≠ 0)
    (hi : i < min params.clusters vs.length)
    (hemp : clusterMembers vs (finalLabels vs cs) i = []) :
    (generate_hitboxes false level vs cs).1 = GenOutcome.error :=
  job_errors_of_empty_cluster level params vs cs i hlevel hsl hk hi hemp

/-- Counterexample to C1 as stated: a legal mesh of two coincident vertices
at the `medium` tier (clamped cluster count 2) leaves cluster 1 empty
after the final assignment, `get_bounding_box` is applied to the empty
point set (its error branch), and the job errors rather than yielding no
box. -/
theorem empty_cluster_counterexample :
    clusterMembers [((1:ℚ),1,1), ((1:ℚ),1,1)]
        (finalLabels [((1:ℚ),1,1), ((1:ℚ),1,1)] [((1:ℚ),1,1), ((1:ℚ),1,1)]) 1 = [] ∧
    get_bounding_box (clusterMembers [((1:ℚ),1,1), ((1:ℚ),1,1)]
        (finalLabels [((1:ℚ),1,1), ((1:ℚ),1,1)] [((1:ℚ),1,1), ((1:ℚ),1,1)]) 1) = none ∧
    (generate_hitboxes false "medium"
        [((1:ℚ),1,1), ((1:ℚ),1,1)] [((1:ℚ),1,1), ((1:ℚ),1,1)]).1 = GenOutcome.error := by
  with_unfolding_all decide

/-- Witness for the amended C1 at a concrete duplicate-vertex mesh. -/
theorem empty_cluster_job_errors_witness :
    precision_levels "medium" = some ⟨300, 15⟩ ∧
    min (300 : Nat) ([((2:ℚ),2,2), ((2:ℚ),2,2)] : List Pt).length ≠ 0 ∧
    1 < min (300 : Nat) ([((2:ℚ),2,2), ((2:ℚ),2,2)] : List Pt).length ∧
    clusterMembers [((2:ℚ),2,2), ((2:ℚ),2,2)]
        (finalLabels [((2:ℚ),2,2), ((2:ℚ),2,2)] [((2:ℚ),2,2), ((2:ℚ),2,2)]) 1 = [] ∧
    (generate_hitboxes false "medium"
        [((2:ℚ),2,2), ((2:ℚ),2,2)] [((2:ℚ),2,2), ((2:ℚ),2,2)]).1 = GenOutcome.error :=
  ⟨rfl, by decide, by decide, by with_unfolding_all decide,
    empty_cluster_job_errors "medium" ⟨300, 15⟩
      [((2:ℚ),2,2), ((2:ℚ),2,2)] [((2:ℚ),2,2), ((2:ℚ),2,2)] 1
      rfl (by decide) (by decide) (by decide) (by with_unfolding_all decide)⟩

/-- C9 (amended): with all vertices identical and at least two of them, the
`low` tier clamps the cluster count only to `min(150, n) ≥ 2`; every
snapped centroid lands on vertex 0, the tie-broken assignment sends every
vertex to cluster 0, cluster 1 is empty, and the job terminates as an
error — it does not degrade to a single box. -/
theorem identical_points_job_errors (p : Pt) (vs cs : List Pt)
    (hall : ∀ v ∈ vs, v = p) (h2 : 2 ≤ vs.length)
    (hcs : cs.length = min 150 vs.length) :
    (generate_hitboxes false "low" vs cs).1 = GenOutcome.error := by
  have hne : vs ≠ [] := by
    rw [← List.length_pos]
    omega
  have hall3 : ∀ c ∈ finalCenters vs cs, c = p :=
    fun c hc => hall c (finalCenters_mem vs cs hne c hc)
  have hk2 : 2 ≤ min 150 vs.length := le_min (by norm_num) h2
  have hcs3ne : finalCenters vs cs ≠ [] := by
    rw [← List.length_pos, finalCenters_length, hcs]
    omega
  have hlab : finalLabels vs cs = vs.map (fun v => nearestIdx v (finalCenters vs cs)) := rfl
  have hemp : clusterMembers vs (finalLabels vs cs) 1 = [] := by
    rw [hlab, clusterMembers_map]
    rw [List.filter_eq_nil_iff]
    intro v _
    rw [nearestIdx_const v p (finalCenters vs cs) hcs3ne hall3]
    decide
  have hkne : min (150 : Nat) vs.length ≠ 0 := by omega
  have hk1 : 1 < min (150 : Nat) vs.length := by omega
  exact job_errors_of_empty_cluster "low" ⟨150, 10⟩ vs cs 1 rfl (by decide) hkne hk1 hemp

/-- C6: for a mesh of pairwise-distinct vertices and a non-bypass tier
requesting at least as many clusters as vertices, the clamped fit returns
one center per vertex (some permutation of the vertices); the job then
produces exactly `n` boxes, one degenerate single-point box per center. -/
theorem clamped_tier_singleton_boxes (level : String) (params : TierParams)
    (vs cs : List Pt)
    (hlevel : precision_levels level = some params) (hsl : level ≠ "super low")
    (hk : vs.length ≤ params.clusters)
    (hne : vs ≠ []) (hnd : vs.Nodup) (hperm : cs.Perm vs) :
    (generate_hitboxes false level vs cs).1
        = GenOutcome.ok (cs.map (fun c => (c, c))) ∧
    (cs.map (fun c => (c, c))).length = vs.length ∧
    ∀ b ∈ cs.map (fun c => (c, c)), ∃ v ∈ vs, b = (v, v) := by
  have d0 : Pt := ((0 : ℚ), 0, 0)
  have hcslen : cs.length = vs.length := hperm.length_eq
  have hmin : min params.clusters vs.length = vs.length := min_eq_right hk
  have hsub : ∀ c ∈ cs, c ∈ vs := fun c hc => hperm.mem_iff.mp hc
  have hfix : finalCenters vs cs = cs := finalCenters_fixed vs cs hsub
  have csnd : cs.Nodup := hperm.nodup_iff.mpr hnd
  have hlab : finalLabels vs cs = vs.map (fun v => nearestIdx v cs) := by
    rw [finalLabels, hfix]
    rfl
  have key2 : ∀ i < cs.length, ∀ v ∈ vs,
      nearestIdx v cs = i → v = cs.getD i ((0 : ℚ), 0, 0) := by
    intro i hi v hv hgi
    have hvc : v ∈ cs := hperm.mem_iff.mpr hv
    have := nearest_self v ((0 : ℚ), 0, 0) cs hvc
    rw [hgi] at this
    exact this.symm
  have key1 : ∀ i < cs.length, nearestIdx (cs.getD i ((0 : ℚ), 0, 0)) cs = i :=
    fun i hi => nearestIdx_eq_of_getD_nodup _ _ cs i hi rfl csnd
  have hmembers : ∀ i < cs.length,
      clusterMembers vs (finalLabels vs cs) i = [] ∨
      (clusterMembers vs (finalLabels vs cs) i ≠ [] ∧
        ∀ x ∈ clusterMembers vs (finalLabels vs cs) i, x = cs.getD i ((0 : ℚ), 0, 0)) := by
    intro i hi
    right
    rw [hlab, clusterMembers_map]
    constructor
    · apply List.ne_nil_of_mem (a := cs.getD i ((0 : ℚ), 0, 0))
      refine List.mem_filter.mpr ⟨hsub _ (getD_mem_of_lt cs i _ hi), ?_⟩
      rw [key1 i hi]
      exact beq_self_eq_true i
    · intro x hx
      obtain ⟨hxv, hxe⟩ := List.mem_filter.mp hx
      exact key2 i hi x hxv (by rwa [beq_iff_eq] at hxe)
  have hboxes : ∀ i ∈ List.range cs.length,
      get_bounding_box (clusterMembers vs (finalLabels vs cs) i)
        = some (cs.getD i ((0 : ℚ), 0, 0), cs.getD i ((0 : ℚ), 0, 0)) := by
    intro i hir
    have hi := List.mem_range.mp hir
    rcases hmembers i hi with hcontra | ⟨hne2, hall⟩
    · exfalso
      rw [hlab, clusterMembers_map] at hcontra
      have hmem : cs.getD i ((0 : ℚ), 0, 0) ∈
          vs.filter (fun v => nearestIdx v cs == i) := by
        refine List.mem_filter.mpr ⟨hsub _ (getD_mem_of_lt cs i _ hi), ?_⟩
        rw [key1 i hi]
        exact beq_self_eq_true i
      rw [hcontra] at hmem
      cases hmem
    · exact get_bounding_box_const _ _ hne2 hall
  have hex : extractBoxes vs (finalLabels vs cs) (min params.clusters vs.length)
      = some (cs.map (fun c => (c, c))) := by
    unfold extractBoxes
    rw [hmin, ← hcslen]
    rw [optList_map_some (List.range cs.length) _
      (fun i => (cs.getD i ((0 : ℚ), 0, 0), cs.getD i ((0 : ℚ), 0, 0))) hboxes]
    rw [map_range_getD (fun c => (c, c)) cs ((0 : ℚ), 0, 0)]
  have hkne : min params.clusters vs.length ≠ 0 := by
    rw [hmin]
    have := List.length_pos.mpr hne
    omega
  refine ⟨?_, by simp [hcslen], ?_⟩
  · rw [generate_eq_runNonBypass false level params vs cs hlevel hsl,
      runNonBypass_some _ _ _ _ hkne hex]
  · intro b hb
    obtain ⟨c, hc, rfl⟩ := List.mem_map.mp hb
    exact ⟨c, hsub c hc, rfl⟩

/-- Witness for C6: two distinct vertices at the `ultra` tier with the fit
centers a permutation of the vertices. -/
theorem clamped_tier_singleton_boxes_witness :
    (generate_hitboxes false "ultra"
        [((0:ℚ),0,0), ((1:ℚ),0,0)] [((1:ℚ),0,0), ((0:ℚ),0,0)]).1
        = GenOutcome.ok (([((1:ℚ),0,0), ((0:ℚ),0,0)] : List Pt).map (fun c => (c, c))) ∧
    (([((1:ℚ),0,0), ((0:ℚ),0,0)] : List Pt).map (fun c => (c, c))).length
        = ([((0:ℚ),0,0), ((1:ℚ),0,0)] : List Pt).length ∧
    ∀ b ∈ ([((1:ℚ),0,0), ((0:ℚ),0,0)] : List Pt).map (fun c => (c, c)),
        ∃ v ∈ ([((0:ℚ),0,0), ((1:ℚ),0,0)] : List Pt), b = (v, v) :=
  clamped_tier_singleton_boxes "ultra" ⟨1200, 25⟩
    [((0:ℚ),0,0), ((1:ℚ),0,0)] [((1:ℚ),0,0), ((0:ℚ),0,0)]
    rfl (by decide) (by decide) (by decide) (by with_unfolding_all decide)
    (by with_unfolding_all decide)

theorem gen_trace_cases (cancel : Bool) (level : String) (vs cs : List Pt) :
    (generate_hitboxes cancel level vs cs).2 = [10, 0] ∨
    (generate_hitboxes cancel level vs cs).2 = [10, 50, 0] ∨
    (generate_hitboxes cancel level vs cs).2 = [10, 50, 50, 60, 70, 0] ∨
    (generate_hitboxes cancel level vs cs).2 = [10, 50, 50, 60, 70, 80, 0] := by
  unfold generate_hitboxes runNonBypass
  split
  · left; rfl
  · split
    · split
      · left; rfl
      · left; rfl
    · split
      · left; rfl
      · split
        · right; left; rfl
        · split
          · right; right; left; rfl
          · right; right; right; rfl

theorem generate_high_success (vs cs : List Pt) (boxes : List (Pt × Pt))
    (hk : min 600 vs.length ≠ 0)
    (hex : extractBoxes vs (finalLabels vs cs) (min 600 vs.length) = some boxes) :
    generate_hitboxes false "high" vs cs
      = (.ok boxes, [10, 50, 50, 60, 70, 80, 0]) := by
  rw [generate_eq_runNonBypass false "high" ⟨600, 20⟩ vs cs rfl (by decide)]
  exact runNonBypass_some _ _ _ _ hk hex

/-- C3 (amended): in a successful load-and-generate run the progress
sequence is 10 (job start), 30 (mesh loaded), then inside generation 10
again, 50 at fit completion, 50/60/70 for the three refinement rounds, 80
after box extraction, a reset to 0 from the inner `finally`, then 90 before
the viewport notification and a final reset to 0; 100% is never
reported. -/
theorem progress_trace_actual (vs cs : List Pt) (boxes : List (Pt × Pt))
    (hk : min 600 vs.length ≠ 0)
    (hex : extractBoxes vs (finalLabels vs cs) (min 600 vs.length) = some boxes) :
    (process_model false true vs cs).2 = [10, 30, 10, 50, 50, 60, 70, 80, 0, 90, 0] ∧
    100 ∉ (process_model false true vs cs).2 := by
  have hp : (process_model false true vs cs).2
      = [10, 30] ++ (generate_hitboxes false "high" vs cs).2 ++ [90, 0] := rfl
  have h1 : (process_model false true vs cs).2
      = [10, 30, 10, 50, 50, 60, 70, 80, 0, 90, 0] := by
    rw [hp, generate_high_success vs cs boxes hk hex]
    rfl
  refine ⟨h1, ?_⟩
  rw [h1]
  decide

/-- Counterexample to C3 as stated: on a concrete successful run the trace
is `[10, 30, 10, 50, 50, 60, 70, 80, 0, 90, 0]` — the three refinement
rounds report 50/60/70 (not 60/70/80), box extraction completes at 80 (not
90), and 100 is never reported. -/
theorem progress_milestones_counterexample :
    (process_model false true [((0:ℚ),0,0), ((1:ℚ),0,0)]
        [((0:ℚ),0,0), ((1:ℚ),0,0)]).2
      = [10, 30, 10, 50, 50, 60, 70, 80, 0, 90, 0] ∧
    100 ∉ (process_model false true [((0:ℚ),0,0), ((1:ℚ),0,0)]
        [((0:ℚ),0,0), ((1:ℚ),0,0)]).2 := by
  with_unfolding_all decide

/-- Witness for the amended C3 on a concrete successful run. -/
theorem progress_trace_actual_witness :
    min 600 ([((0:ℚ),0,0), ((4:ℚ),0,0)] : List Pt).length ≠ 0 ∧
    extractBoxes [((0:ℚ),0,0), ((4:ℚ),0,0)]
        (finalLabels [((0:ℚ),0,0), ((4:ℚ),0,0)] [((0:ℚ),0,0), ((4:ℚ),0,0)])
        (min 600 ([((0:ℚ),0,0), ((4:ℚ),0,0)] : List Pt).length)
      = some [(((0:ℚ),0,0), ((0:ℚ),0,0)), (((4:ℚ),0,0), ((4:ℚ),0,0))] ∧
    ((process_model false true [((0:ℚ),0,0), ((4:ℚ),0,0)]
        [((0:ℚ),0,0), ((4:ℚ),0,0)]).2
      = [10, 30, 10, 50, 50, 60, 70, 80, 0, 90, 0] ∧
    100 ∉ (process_model false true [((0:ℚ),0,0), ((4:ℚ),0,0)]
        [((0:ℚ),0,0), ((4:ℚ),0,0)]).2) :=
  ⟨by decide, by with_unfolding_all decide,
    progress_trace_actual [((0:ℚ),0,0), ((4:ℚ),0,0)] [((0:ℚ),0,0), ((4:ℚ),0,0)]
      [(((0:ℚ),0,0), ((0:ℚ),0,0)), (((4:ℚ),0,0), ((4:ℚ),0,0))]
      (by decide) (by with_unfolding_all decide)⟩

/-- C5 (amended): every reported progress value of a generation or
load-and-generate run is an integer in [0, 100], and within one
`generate_hitboxes` run the values never decrease until the final
reset-to-0 from the `finally` block; monotonicity across a whole
`process_model` run fails (see the counterexample). -/
theorem progress_in_range_and_monotone_until_reset (cancel : Bool) (level : String)
    (vs cs : List Pt) :
    (∀ v ∈ (generate_hitboxes cancel level vs cs).2, v ≤ 100) ∧
    nonDecreasing ((generate_hitboxes cancel level vs cs).2.dropLast) = true ∧
    (∀ v ∈ (process_model cancel true vs cs).2, v ≤ 100) := by
  have h3 : ∀ v ∈ (process_model cancel true vs cs).2, v ≤ 100 := by
    have hp : (process_model cancel true vs cs).2
        = [10, 30] ++ (generate_hitboxes cancel "high" vs cs).2 ++ [90, 0] := rfl
    obtain h | h | h | h := gen_trace_cases cancel "high" vs cs <;>
      · rw [hp, h]
        decide
  obtain h | h | h | h := gen_trace_cases cancel level vs cs <;>
    · rw [h]
      exact ⟨by decide, by decide, h3⟩

/-- Counterexample to C5 as stated: a concrete successful load run reports
30 and then 10 (the nested generation re-reports its own start), so the
progress of one job run is not monotonically non-decreasing. -/
theorem progress_not_monotone_counterexample :
    nonDecreasing ((process_model false true [((0:ℚ),0,0), ((2:ℚ),0,0)]
        [((0:ℚ),0,0), ((2:ℚ),0,0)]).2) = false := by
  with_unfolding_all decide

/-- Counterexample to C9 as stated: two identical points at the `low` tier
(requested cluster count 150 > 1, clamped only to 2) make the job
terminate as an error — it does not degrade to a single-box result. -/
theorem identical_points_counterexample :
    (generate_hitboxes false "low" [((0:ℚ),0,0), ((0:ℚ),0,0)]
        [((0:ℚ),0,0), ((0:ℚ),0,0)]).1 = GenOutcome.error := by
  with_unfolding_all decide

/-- Witness for the amended C9: identical vertices with arbitrary fitted
centers of the clamped length. -/
theorem identical_points_job_errors_witness :
    (∀ v ∈ ([((0:ℚ),0,0), ((0:ℚ),0,0)] : List Pt), v = (((0:ℚ),0,0) : Pt)) ∧
    2 ≤ ([((0:ℚ),0,0), ((0:ℚ),0,0)] : List Pt).length ∧
    ([((5:ℚ),5,5), ((7:ℚ),7,7)] : List Pt).length
      = min 150 ([((0:ℚ),0,0), ((0:ℚ),0,0)] : List Pt).length ∧
    (generate_hitboxes false "low" [((0:ℚ),0,0), ((0:ℚ),0,0)]
        [((5:ℚ),5,5), ((7:ℚ),7,7)]).1 = GenOutcome.error :=
  ⟨by decide, by decide, by decide,
    identical_points_job_errors ((0:ℚ),0,0)
      [((0:ℚ),0,0), ((0:ℚ),0,0)] [((5:ℚ),5,5), ((7:ℚ),7,7)]
      (by decide) (by decide) (by decide)⟩

end HitboxGen
